import Mathlib

/-!
Shallow embedding of the bitstamp-go market-data client
(`bitstamp.go`, `websocket.go` and the two revision variants of those
files), together with theorems settling the frozen claims about the
natural-language specification.

Modelling conventions:
* Go's `interface{}` values produced by `encoding/json` are modelled by
  `Bitstamp.JsonVal` (JSON array ↦ `arr`, object ↦ `obj`, string ↦ `str`,
  number ↦ `num`, etc.).  Byte-level JSON parsing itself is an external
  collaborator and is not re-modelled; functions take the already
  unmarshalled value.
* `float64` values are modelled as exact rationals: `strconv.ParseFloat`
  is modelled as the exact decimal value of the accepted string (binary
  rounding is abstracted away; the special forms `Inf`, `NaN`, hexadecimal
  floats and digit-separating underscores are outside the inputs the
  claims exercise and are not modelled).
* Fallible Go code returning `(T, error)` is modelled with explicit result
  inductives; a Go runtime panic (failed type assertion, index out of
  range, nil-pointer dereference) is a distinct `panic` constructor,
  never an error return.
* `time.Time` is modelled by `GoTime`: the zero value of `time.Time` is
  distinct from `time.Unix 0`, which the model keeps.
-/

set_option autoImplicit false

namespace Bitstamp

/-- Model of Go `time.Time` as used by this code base: either the zero
value of `time.Time` (never equal to any `time.Unix` instant used here)
or `time.Unix(sec, 0)`. -/
inductive GoTime where
  | zeroVal
  | unix (sec : Int)
deriving DecidableEq, Repr

/-- Model of a JSON value as decoded by `encoding/json` into
`interface\x7b\x7d`: arrays become `arr`, objects `obj` (an association
list in document order), strings `str`, numbers `num`, booleans `bool`,
null `null`. -/
inductive JsonVal where
  | null
  | bool (b : Bool)
  | num (q : ℚ)
  | str (s : String)
  | arr (elems : List JsonVal)
  | obj (fields : List (String × JsonVal))

/-- Go map indexing `m["k"]` on the unmarshalled object: the value stored
under the key, or Go's nil interface (here `none`) when absent. -/
def jLookup : List (String × JsonVal) → String → Option JsonVal
  | [], _ => none
  | (k, v) :: rest, key => if k = key then some v else jLookup rest key

/-- `github.com/pkg/errors.Wrap err msg`: returns nil (`none`) when `err`
is nil, otherwise an error whose message is `msg ++ ": " ++` the wrapped
message. -/
def errorsWrap (e : Option String) (msg : String) : Option String :=
  e.map (fun m => msg ++ ": " ++ m)

/-- Leading sign of a numeric literal, as consumed by `strconv`. -/
def splitSign : List Char → Bool × List Char
  | '-' :: cs => (true, cs)
  | '+' :: cs => (false, cs)
  | cs => (false, cs)

/-- Longest prefix of decimal digits, returned as digit values, with the
rest of the input. -/
def takeDigits : List Char → List Nat × List Char
  | [] => ([], [])
  | c :: cs =>
    if c.isDigit then
      let (ds, rest) := takeDigits cs
      ((c.toNat - 48) :: ds, rest)
    else ([], c :: cs)

/-- Value of a digit string read in base 10. -/
def digitsToNat (ds : List Nat) : Nat :=
  ds.foldl (fun a d => a * 10 + d) 0

/-- Optional exponent suffix of a float literal: empty input means
exponent 0; otherwise `e`/`E`, an optional sign and a nonempty digit run
must consume the whole rest of the input. -/
def parseExpSuffix : List Char → Option Int
  | [] => some 0
  | c :: cs =>
    if c = 'e' ∨ c = 'E' then
      let (neg, cs1) := splitSign cs
      let (ds, rest) := takeDigits cs1
      if ds.isEmpty ∨ ¬rest.isEmpty then none
      else some (if neg then -(digitsToNat ds : Int) else (digitsToNat ds : Int))
    else none

/-- Integer power of ten as a rational, for the exponent part. -/
def tenPowZ (e : Int) : ℚ :=
  if 0 ≤ e then ((10 : ℚ) ^ e.toNat) else 1 / (10 : ℚ) ^ (-e).toNat

/-- Syntactic phase of `strconv.ParseFloat(s, 64)` on the decimal grammar
`sign? digits? (. digits?)? ((e|E) sign? digits)?` with at least one
mantissa digit required: sign, integer digits, fraction digits and
exponent, or `none` on a syntax violation. -/
def parseFloatSyn (s : String) : Option (Bool × List Nat × List Nat × Int) :=
  let (neg, cs) := splitSign s.data
  let (ip, cs1) := takeDigits cs
  let (fp, cs2) :=
    match cs1 with
    | '.' :: t => takeDigits t
    | _ => (([] : List Nat), cs1)
  if ip.isEmpty ∧ fp.isEmpty then none
  else
    match parseExpSuffix cs2 with
    | none => none
    | some e => some (neg, ip, fp, e)

/-- Exact rational value of an accepted decimal float literal. -/
def floatValue : Bool × List Nat × List Nat × Int → ℚ
  | (neg, ip, fp, e) =>
    let mant : ℚ := (digitsToNat ip : ℚ) + (digitsToNat fp : ℚ) / (10 : ℚ) ^ fp.length
    let v := mant * tenPowZ e
    if neg then -v else v

/-- Model of `strconv.ParseFloat(s, 64)`: the exact rational value of the
accepted literal, or the strconv syntax error. -/
def goParseFloat (s : String) : Except String ℚ :=
  match parseFloatSyn s with
  | none => .error ("strconv.ParseFloat: parsing \"" ++ s ++ "\": invalid syntax")
  | some r => .ok (floatValue r)

/-- Model of `strconv.ParseInt(s, 10, 64)`: optional sign, nonempty digit
run consuming the whole string, value within the signed 64-bit range;
otherwise the strconv syntax or range error. -/
def goParseInt10 (s : String) : Except String Int :=
  let (neg, cs) := splitSign s.data
  let (ds, rest) := takeDigits cs
  if ds.isEmpty ∨ ¬rest.isEmpty then
    .error ("strconv.ParseInt: parsing \"" ++ s ++ "\": invalid syntax")
  else
    let v : Int := if neg then -(digitsToNat ds : Int) else (digitsToNat ds : Int)
    if v < -(2 ^ 63) ∨ (2 ^ 63 - 1 : Int) < v then
      .error ("strconv.ParseInt: parsing \"" ++ s ++ "\": value out of range")
    else .ok v

/-- `Order` is a (price, amount) pair (`bitstamp.go`). -/
structure Order where
  price : ℚ
  amount : ℚ
deriving DecidableEq, Repr

/-- `OrderBook` with the fields in source order: `Time`, `Asks`, `Bids`. -/
structure OrderBook where
  time : GoTime
  asks : List Order
  bids : List Order
deriving DecidableEq, Repr

/-- `Trade` with the fields in source order: `Time`, `ID`, `Price`,
`Amount`. -/
structure Trade where
  time : GoTime
  id : String
  price : ℚ
  amount : ℚ
deriving DecidableEq, Repr

/-- Outcome of the `parse` closure inside `parseOrderBook`: the decoded
side, the first numeric-parse error, or a Go runtime panic. -/
inductive SideResult where
  | ok (orders : List Order)
  | err (msg : String)
  | panic (msg : String)
deriving DecidableEq, Repr

/-- The `parse` closure of `parseOrderBook` (identical in `bitstamp.go`
and in the `part_000` revision): for each element, assert it is an array
(`elem.([]interface\x7b\x7d)`, panics otherwise), index entry 0 and assert
string (panics when missing or non-string), `ParseFloat` it (error return
on failure), then the same for entry 1, and append the `(price, amount)`
pair in input order.  Entries beyond the first two are never inspected. -/
def parseSideGo : List JsonVal → SideResult
  | [] => .ok []
  | elem :: rest =>
    match elem with
    | .arr ord =>
      match ord with
      | [] => .panic "runtime error: index out of range"
      | o0 :: ord1 =>
        match o0 with
        | .str ps =>
          match goParseFloat ps with
          | .error m => .err m
          | .ok price =>
            match ord1 with
            | [] => .panic "runtime error: index out of range"
            | o1 :: _ =>
              match o1 with
              | .str amts =>
                match goParseFloat amts with
                | .error m => .err m
                | .ok amount =>
                  match parseSideGo rest with
                  | .ok os => .ok (⟨price, amount⟩ :: os)
                  | r => r
              | _ => .panic "interface conversion: not a string"
        | _ => .panic "interface conversion: not a string"
    | _ => .panic "interface conversion: not an array"

/-- Timestamp section shared by both `parseOrderBook` variants:
`time.Now().Unix()` (the `now` argument) when the field is absent; the
error `invalid timestamp` when the field is present but not a string; the
`strconv.ParseInt` result when it is a string. -/
def obTimestamp (now : Int) (obj : List (String × JsonVal)) : Except String Int :=
  match jLookup obj "timestamp" with
  | none => .ok now
  | some (.str ts) => goParseInt10 ts
  | some _ => .error "invalid timestamp"

/-- Outcome of `parseOrderBook`: a decoded book, an error return, the
`(nil, nil)` return (nil book together with a nil error), or a runtime
panic. -/
inductive POBResult where
  | ok (ob : OrderBook)
  | err (msg : String)
  | nilNil
  | panic (msg : String)
deriving DecidableEq, Repr

/-- `parseOrderBook` as in `src/bitstamp.go` (lines 117-172): generic
unmarshal (the caller hands the unmarshalled object), optional timestamp,
then the unchecked assertions `defaultstruct["bids"].([]interface\x7b\x7d)`
and the same for `"asks"` — a missing or non-array field panics — then
both sides are parsed and a parse error is wrapped by `errors.Wrap` with
`bids parsing error` / `asks parsing error`. -/
def parseOrderBookBitstamp (now : Int) (obj : List (String × JsonVal)) : POBResult :=
  match obTimestamp now obj with
  | .error m => .err m
  | .ok timestamp =>
    match jLookup obj "bids" with
    | some (.arr bids) =>
      match jLookup obj "asks" with
      | some (.arr asks) =>
        match parseSideGo bids with
        | .err m => .err ("bids parsing error: " ++ m)
        | .panic m => .panic m
        | .ok pb =>
          match parseSideGo asks with
          | .err m => .err ("asks parsing error: " ++ m)
          | .panic m => .panic m
          | .ok pa => .ok { time := .unix timestamp, asks := pa, bids := pb }
      | _ => .panic "interface conversion: not an array"
    | _ => .panic "interface conversion: not an array"

/-- `parseOrderBook` as in `src/unnamed/part_000` (lines 114-175): same
as the `bitstamp.go` variant except that the `bids`/`asks` extraction
uses comma-ok assertions; on failure it returns
`nil, errors.Wrap(err, "... interface convert error")` — and the
in-scope `err` is provably nil at that point (every earlier non-nil
`err` has already been returned), so `errorsWrap` yields `none` and the
function returns a nil book with a nil error. -/
def parseOrderBookPart0 (now : Int) (obj : List (String × JsonVal)) : POBResult :=
  match obTimestamp now obj with
  | .error m => .err m
  | .ok timestamp =>
    match jLookup obj "bids" with
    | some (.arr bids) =>
      match jLookup obj "asks" with
      | some (.arr asks) =>
        match parseSideGo bids with
        | .err m => .err ("bids parsing error: " ++ m)
        | .panic m => .panic m
        | .ok pb =>
          match parseSideGo asks with
          | .err m => .err ("asks parsing error: " ++ m)
          | .panic m => .panic m
          | .ok pa => .ok { time := .unix timestamp, asks := pa, bids := pb }
      | _ =>
        match errorsWrap none "asks interface convert error" with
        | some m => .err m
        | none => .nilNil
    | _ =>
      match errorsWrap none "bids interface convert error" with
      | some m => .err m
      | none => .nilNil

/-- `parseOrderBook` of `part_000` applied to a whole JSON document:
`json.Unmarshal` into `make(map[string]interface\x7b\x7d)` accepts an
object (and `null`, which leaves the map empty) and fails on any other
document. -/
def parseOrderBookPart0Doc (now : Int) (doc : JsonVal) : POBResult :=
  match doc with
  | .obj fields => parseOrderBookPart0 now fields
  | .null => parseOrderBookPart0 now []
  | _ => .err "json: cannot unmarshal value into map"

/-- Decode half of `GetOrderBook` (`part_000` lines 106-112): the body
fetched over HTTP is handed to the same `parseOrderBook`, and its error
is returned to the caller unchanged. -/
def getOrderBookDecode (now : Int) (body : JsonVal) : POBResult :=
  parseOrderBookPart0Doc now body

/-- The zero value of Go's `Trade` struct, as produced by
`make([]Trade, n)`: the zero `time.Time`, empty id, zero price and
amount. -/
def zeroTrade : Trade :=
  { time := .zeroVal, id := "", price := 0, amount := 0 }

/-- Outcome of decoding one element inside the `formatTrades` loop. -/
inductive TStep where
  | ok (t : Trade)
  | err (msg : String)
  | panic (msg : String)
deriving DecidableEq, Repr

/-- One iteration of the `formatTrades` loop body (`bitstamp.go` lines
238-259, identical in `part_000`), in source evaluation order: assert the
element is a map (panics otherwise); assert `_t["price"]` is a string
(panics when missing or non-string) and `ParseFloat` it (error return on
failure); same for `amount`; assert `_t["date"]` is a string and
`ParseInt` it; finally assert `_t["tid"]` is a string while building the
`Trade` literal. -/
def decodeTradeStep (v : JsonVal) : TStep :=
  match v with
  | .obj m =>
    match jLookup m "price" with
    | some (.str ps) =>
      match goParseFloat ps with
      | .error e => .err e
      | .ok price =>
        match jLookup m "amount" with
        | some (.str amts) =>
          match goParseFloat amts with
          | .error e => .err e
          | .ok amount =>
            match jLookup m "date" with
            | some (.str ds) =>
              match goParseInt10 ds with
              | .error e => .err e
              | .ok d =>
                match jLookup m "tid" with
                | some (.str tid) => .ok { time := .unix d, id := tid, price := price, amount := amount }
                | _ => .panic "interface conversion: not a string"
            | _ => .panic "interface conversion: not a string"
        | _ => .panic "interface conversion: not a string"
    | _ => .panic "interface conversion: not a string"
  | _ => .panic "interface conversion: not a map"

/-- Outcome of `formatTrades` on the unmarshalled top-level array: a
fully decoded list, an error return together with the trades slice as Go
returns it, or a runtime panic. -/
inductive FTResult where
  | ok (trades : List Trade)
  | errRet (trades : List Trade) (msg : String)
  | panic (msg : String)
deriving DecidableEq, Repr

/-- `formatTrades` (`bitstamp.go` lines 230-262) after the top-level
unmarshal: Go allocates `trades := make([]Trade, n)` (all zero values)
and fills `trades[i]` as it goes; on the first error return the whole
slice is returned — decoded entries before the failing element, zero
values from the failing element onward.  The recursion below produces
exactly that slice. -/
def formatTrades : List JsonVal → FTResult
  | [] => .ok []
  | v :: rest =>
    match decodeTradeStep v with
    | .panic m => .panic m
    | .err m => .errRet (List.replicate (rest.length + 1) zeroTrade) m
    | .ok t =>
      match formatTrades rest with
      | .ok ts => .ok (t :: ts)
      | .errRet ts m => .errRet (t :: ts) m
      | .panic m => .panic m

/-- All-ok decode of a list of trade elements, used to phrase prefixes of
`formatTrades` inputs on which every element decodes. -/
def decodeTrades : List JsonVal → Option (List Trade)
  | [] => some []
  | v :: rest =>
    match decodeTradeStep v with
    | .ok t => (decodeTrades rest).map (t :: ·)
    | _ => none

/-- Inbound envelope `WsEvent` of `websocket.go`: event name, channel
name, raw payload (kept as its JSON value). -/
structure WsEvent where
  event : String
  channel : String
  data : JsonVal

/-- Model of an `error` value handed back by `ReadMessage`:
`temporaryCap` is `some b` when the dynamic type implements the
`errTemporary` capability (`Temporary() bool`) with answer `b`, and
`none` when it does not. -/
structure ReadError where
  msg : String
  temporaryCap : Option Bool
deriving DecidableEq, Repr

/-- What one `default:` iteration of the read loop encounters: a read
failure, a successful read whose `json.Unmarshal` into `WsEvent` fails,
or a decoded envelope. -/
inductive ReadInput where
  | readFail (e : ReadError)
  | decodeFail (e : ReadError)
  | event (ev : WsEvent)

/-- Mutable state of the `WsClient` channels and connection: whether the
single-slot `done` channel holds a value, whether the single-slot
`Errors` channel holds an undelivered error, and whether the websocket
connection is still open. -/
structure WsState where
  doneFlag : Bool
  errSlot : Option ReadError
  connOpen : Bool
deriving DecidableEq, Repr

/-- The non-blocking error push of `websocket.go` (lines 60-64 and
76-80): `select \x7b case c.Errors <- err: default: ... \x7d` — store the
error when the single-slot queue is empty, otherwise keep the old one and
drop the new one. -/
def tryPushErr (slot : Option ReadError) (e : ReadError) : Option ReadError :=
  match slot with
  | none => some e
  | some e0 => some e0

/-- Result of one read-loop iteration.  `blocked` is the outcome a
blocking channel send with no ready receiver would produce (as in the
older `part_001` revision, whose `Errors` channel is unbuffered); the
`websocket.go` loop never produces it. -/
inductive StepResult where
  | exited (s : WsState)
  | continued (s : WsState) (emitted : Option WsEvent) (sleptMs : Nat)
  | blocked

/-- One iteration of the `websocket.go` read loop (lines 49-86): consume
the `done` signal and return (the deferred `c.ws.Close()` runs) if
present; otherwise, on a read failure push the error without blocking,
classify it via the `errTemporary` capability — terminate when the
capability answers not-temporary, else sleep `readMsgTimeout` (100 ms)
and continue; on an unmarshal failure push the error without blocking and
continue; on a decoded envelope send it to `Stream` (modelled as the
`emitted` output; the send blocks until a consumer accepts, which is the
intended backpressure and is outside this step). -/
def readLoopStep (s : WsState) (inp : ReadInput) : StepResult :=
  if s.doneFlag then
    .exited { s with doneFlag := false, connOpen := false }
  else
    match inp with
    | .readFail e =>
      let slot := tryPushErr s.errSlot e
      if e.temporaryCap = some false then
        .exited { s with errSlot := slot, connOpen := false }
      else
        .continued { s with errSlot := slot } none 100
    | .decodeFail e =>
      .continued { s with errSlot := tryPushErr s.errSlot e } none 0
    | .event ev => .continued s (some ev) 0

/-- Final outcome of running the read loop over a list of iteration
inputs: still alive in some state, exited, or stuck on a blocking send. -/
inductive RunOutcome where
  | alive (s : WsState)
  | exitedRun (s : WsState)
  | blockedRun

/-- Run the read loop over a list of iteration inputs. -/
def runReads (s : WsState) : List ReadInput → RunOutcome
  | [] => .alive s
  | inp :: rest =>
    match readLoopStep s inp with
    | .exited s1 => .exitedRun s1
    | .continued s1 _ _ => runReads s1 rest
    | .blocked => .blockedRun

/-- `Close` of `websocket.go` (lines 91-97):
`select \x7b case c.done <- true: default: ... \x7d` — a single-slot
non-blocking signal.  Returns the new state and whether this call
actually sent the signal.  The connection is never touched here. -/
def closeStep (s : WsState) : WsState × Bool :=
  if s.doneFlag then (s, false)
  else ({ s with doneFlag := true }, true)

/-- Call `Close` `n` times in a row, counting how many calls actually
sent the shutdown signal. -/
def iterCloseCount : Nat → WsState → WsState × Nat
  | 0, s => (s, 0)
  | n + 1, s =>
    let p := closeStep s
    let q := iterCloseCount n p.1
    (q.1, (if p.2 then 1 else 0) + q.2)

/-- What the Delivering select of `SubscribeOrderBook` (`part_000` lines
209-229) sees ready first: a `Stream` envelope, a stop signal on
`stopChan`, or an error from `Errors`. -/
inductive FeedInput where
  | streamEvt (ev : WsEvent)
  | stopSignal
  | errQueueEvt

/-- Outcome of one Delivering iteration: loop again (optionally after a
blocking send of a decoded book to `dataChan`), return to the caller
(recording whether `Unsubscribe` and `Close` ran and the returned
error), or a goroutine-killing runtime panic. -/
inductive DeliverOutcome where
  | looping (delivered : Option OrderBook)
  | returned (unsubscribed : Bool) (closed : Bool) (err : Option String)
  | panicked (msg : String)
deriving DecidableEq, Repr

/-- One iteration of the Delivering select in `part_000`'s
`SubscribeOrderBook` (lines 209-229).  A `Stream` envelope with event
`"data"` has its payload re-marshalled (identity on the JSON value) and
decoded by `parseOrderBook`; on success the book is sent to `dataChan`,
on an error return it is silently dropped; the `(nil, nil)` return
passes the `err == nil` test and dereferences the nil book.  Any other
event is only printed.  The `case <-stopChan:` arm has an empty body, so
the signal is consumed and the loop re-enters the select.  Only the
`case <-c.Errors:` arm unsubscribes, closes the client and returns
(with a nil error). -/
def deliveringStep (now : Int) (inp : FeedInput) : DeliverOutcome :=
  match inp with
  | .streamEvt ev =>
    if ev.event = "data" then
      match parseOrderBookPart0Doc now ev.data with
      | .ok ob => .looping (some ob)
      | .err _ => .looping none
      | .nilNil => .panicked "runtime error: invalid memory address or nil pointer dereference"
      | .panic m => .panicked m
    else .looping none
  | .stopSignal => .looping none
  | .errQueueEvt => .returned true true none

end Bitstamp

instance {ε α : Type} [DecidableEq ε] [DecidableEq α] : DecidableEq (Except ε α) := fun a b =>
  match a, b with
  | .ok x, .ok y =>
    if h : x = y then .isTrue (by rw [h]) else .isFalse (by intro hc; cases hc; exact h rfl)
  | .error x, .error y =>
    if h : x = y then .isTrue (by rw [h]) else .isFalse (by intro hc; cases hc; exact h rfl)
  | .ok _, .error _ => .isFalse (by intro hc; cases hc)
  | .error _, .ok _ => .isFalse (by intro hc; cases hc)

namespace Bitstamp

/-- Wire shape of one `[price, amount]` pair of strings. -/
def rawPair (p : String × String) : JsonVal :=
  .arr [.str p.1, .str p.2]

/-- Wire shape of one side of the book: an array of string pairs. -/
def wireSide (l : List (String × String)) : JsonVal :=
  .arr (l.map rawPair)

/-- Well-formed order-book wire object with the given sides (and no
timestamp field). -/
def wireObj (lb la : List (String × String)) : List (String × JsonVal) :=
  [("bids", wireSide lb), ("asks", wireSide la)]

/-- The two `ParseFloat` results of a wire pair. -/
def pairFloats (p : String × String) : Except String ℚ × Except String ℚ :=
  (goParseFloat p.1, goParseFloat p.2)

/-- Both entries parsed successfully to the given numeric values. -/
def pairOks (q : ℚ × ℚ) : Except String ℚ × Except String ℚ :=
  (.ok q.1, .ok q.2)

/-- Order built from a (price, amount) value pair. -/
def mkOrder (q : ℚ × ℚ) : Order :=
  { price := q.1, amount := q.2 }

theorem goParseFloat_eval (s : String) (r : Bool × List Nat × List Nat × Int) (q : ℚ)
    (hsyn : parseFloatSyn s = some r) (hval : floatValue r = q) :
    goParseFloat s = .ok q := by
  simp only [goParseFloat, hsyn, hval]

theorem goParseFloat_100_5 : goParseFloat "100.5" = .ok (100.5 : ℚ) :=
  goParseFloat_eval _ (false, [1, 0, 0], [5], 0) _ rfl
    (by norm_num [floatValue, digitsToNat, tenPowZ])

theorem goParseFloat_101 : goParseFloat "101" = .ok (101 : ℚ) :=
  goParseFloat_eval _ (false, [1, 0, 1], [], 0) _ rfl
    (by norm_num [floatValue, digitsToNat, tenPowZ])

theorem goParseFloat_102 : goParseFloat "102" = .ok (102 : ℚ) :=
  goParseFloat_eval _ (false, [1, 0, 2], [], 0) _ rfl
    (by norm_num [floatValue, digitsToNat, tenPowZ])

theorem goParseFloat_1 : goParseFloat "1" = .ok (1 : ℚ) :=
  goParseFloat_eval _ (false, [1], [], 0) _ rfl
    (by norm_num [floatValue, digitsToNat, tenPowZ])

theorem goParseFloat_2 : goParseFloat "2" = .ok (2 : ℚ) :=
  goParseFloat_eval _ (false, [2], [], 0) _ rfl
    (by norm_num [floatValue, digitsToNat, tenPowZ])

theorem goParseFloat_3 : goParseFloat "3" = .ok (3 : ℚ) :=
  goParseFloat_eval _ (false, [3], [], 0) _ rfl
    (by norm_num [floatValue, digitsToNat, tenPowZ])

theorem goParseFloat_10 : goParseFloat "10" = .ok (10 : ℚ) :=
  goParseFloat_eval _ (false, [1, 0], [], 0) _ rfl
    (by norm_num [floatValue, digitsToNat, tenPowZ])

theorem goParseFloat_x : goParseFloat "x" =
    .error "strconv.ParseFloat: parsing \"x\": invalid syntax" := rfl

/-- Order-preservation of the `parse` closure: when every input pair
parses to the corresponding value pair, the output is the value pairs in
exactly the input order. -/
theorem parseSideGo_map (l : List (String × String)) : ∀ qs : List (ℚ × ℚ),
    l.map pairFloats = qs.map pairOks →
    parseSideGo (l.map rawPair) = .ok (qs.map mkOrder) := by
  induction l with
  | nil =>
    intro qs h
    cases qs with
    | nil => rfl
    | cons q qs => simp at h
  | cons p l ih =>
    intro qs h
    cases qs with
    | nil => simp at h
    | cons q qs =>
      simp only [List.map_cons, List.cons.injEq] at h
      obtain ⟨hp, hrest⟩ := h
      have h1 : goParseFloat p.1 = .ok q.1 := congrArg Prod.fst hp
      have h2 : goParseFloat p.2 = .ok q.2 := congrArg Prod.snd hp
      simp only [List.map_cons, rawPair, parseSideGo, h1, h2, ih qs hrest, mkOrder]

/-- C1: for every well-formed order-book wire object, decoding yields
bids and asks whose elements appear in exactly the input order with the
numeric values of the input string pairs (no re-sorting); in particular
decoding bids `[["100.5","2"],["101","1"]]`, asks `[["102","3"]]` yields
bids `[(100.5,2),(101,1)]` and asks `[(102,3)]`. -/
theorem c1_orderbook_decode_preserves_order :
    (∀ (now : Int) (lb la : List (String × String)) (qb qa : List (ℚ × ℚ)),
      lb.map pairFloats = qb.map pairOks →
      la.map pairFloats = qa.map pairOks →
      parseOrderBookBitstamp now (wireObj lb la) =
        .ok { time := .unix now, asks := qa.map mkOrder, bids := qb.map mkOrder })
    ∧ parseOrderBookBitstamp 0 (wireObj [("100.5", "2"), ("101", "1")] [("102", "3")]) =
        .ok { time := .unix 0,
              asks := [{ price := 102, amount := 3 }],
              bids := [{ price := 100.5, amount := 2 }, { price := 101, amount := 1 }] } := by
  have hgen : ∀ (now : Int) (lb la : List (String × String)) (qb qa : List (ℚ × ℚ)),
      lb.map pairFloats = qb.map pairOks →
      la.map pairFloats = qa.map pairOks →
      parseOrderBookBitstamp now (wireObj lb la) =
        .ok { time := .unix now, asks := qa.map mkOrder, bids := qb.map mkOrder } := by
    intro now lb la qb qa hb ha
    have hts : obTimestamp now (wireObj lb la) = .ok now := rfl
    have hbids : jLookup (wireObj lb la) "bids" = some (.arr (lb.map rawPair)) := rfl
    have hasks : jLookup (wireObj lb la) "asks" = some (.arr (la.map rawPair)) := rfl
    simp only [parseOrderBookBitstamp, hts, hbids, hasks,
      parseSideGo_map lb qb hb, parseSideGo_map la qa ha]
  refine ⟨hgen, ?_⟩
  have h := hgen 0 [("100.5", "2"), ("101", "1")] [("102", "3")]
    [((100.5 : ℚ), (2 : ℚ)), ((101 : ℚ), (1 : ℚ))] [((102 : ℚ), (3 : ℚ))]
    (by simp only [List.map_cons, List.map_nil, pairFloats, pairOks,
          goParseFloat_100_5, goParseFloat_101, goParseFloat_2, goParseFloat_1])
    (by simp only [List.map_cons, List.map_nil, pairFloats, pairOks,
          goParseFloat_102, goParseFloat_3])
  simpa only [List.map_cons, List.map_nil, mkOrder] using h

/-- C1 witness: the general part of C1 applied at a concrete well-formed
wire object. -/
theorem c1_witness :
    parseOrderBookBitstamp 5 (wireObj [("1", "2")] [("3", "10")]) =
      .ok { time := .unix 5,
            asks := [{ price := 3, amount := 10 }],
            bids := [{ price := 1, amount := 2 }] } := by
  have h := c1_orderbook_decode_preserves_order.1 5 [("1", "2")] [("3", "10")]
    [((1 : ℚ), (2 : ℚ))] [((3 : ℚ), (10 : ℚ))]
    (by simp only [List.map_cons, List.map_nil, pairFloats, pairOks,
          goParseFloat_1, goParseFloat_2])
    (by simp only [List.map_cons, List.map_nil, pairFloats, pairOks,
          goParseFloat_3, goParseFloat_10])
  simpa only [List.map_cons, List.map_nil, mkOrder] using h

/-- C4 counterexample: an element of arity 3 does not make the decode
fail — the extra entry is ignored and the decode succeeds — and an
element of arity 0 causes a runtime panic, not an error naming the side;
both refute "an element whose arity is not exactly 2 ... causes the
decode to fail with an error that names the offending side". -/
theorem c4_counterexample :
    parseOrderBookBitstamp 0
        [("bids", .arr [.arr [.str "1", .str "2", .str "3"]]), ("asks", .arr [])] =
      .ok { time := .unix 0, asks := [], bids := [{ price := 1, amount := 2 }] }
    ∧ parseOrderBookBitstamp 0 [("bids", .arr [.arr []]), ("asks", .arr [])] =
      .panic "runtime error: index out of range" := by
  constructor
  · simp [parseOrderBookBitstamp, obTimestamp, jLookup, parseSideGo,
      goParseFloat_1, goParseFloat_2]
  · rfl

/-- C4 amended: an element whose price or amount entry is a string that
does not parse as base-10 floating point causes the decode to fail with
an error naming the offending side and wrapping the numeric-parse
failure (in particular bids `[["x","1"]]` fails naming "bids"); an
element of arity below 2, by contrast, panics at runtime, and entries
beyond the first two are ignored. -/
theorem c4_amended :
    (∀ (now : Int) (bs asksRaw : List JsonVal) (m : String),
      parseSideGo bs = .err m →
      parseOrderBookBitstamp now [("bids", .arr bs), ("asks", .arr asksRaw)] =
        .err ("bids parsing error: " ++ m))
    ∧ (∀ (now : Int) (bs asksRaw : List JsonVal) (os : List Order) (m : String),
      parseSideGo bs = .ok os → parseSideGo asksRaw = .err m →
      parseOrderBookBitstamp now [("bids", .arr bs), ("asks", .arr asksRaw)] =
        .err ("asks parsing error: " ++ m))
    ∧ (∀ (p a : String) (rest : List JsonVal) (m : String),
      goParseFloat p = .error m →
      parseSideGo (.arr [.str p, .str a] :: rest) = .err m)
    ∧ (∀ (p : String) (q : ℚ) (a : String) (rest : List JsonVal) (m : String),
      goParseFloat p = .ok q → goParseFloat a = .error m →
      parseSideGo (.arr [.str p, .str a] :: rest) = .err m)
    ∧ parseOrderBookBitstamp 0 [("bids", .arr [.arr [.str "x", .str "1"]]), ("asks", .arr [])] =
        .err "bids parsing error: strconv.ParseFloat: parsing \"x\": invalid syntax" := by
  refine ⟨?_, ?_, ?_, ?_, rfl⟩
  · intro now bs asksRaw m h
    have hts : obTimestamp now [("bids", JsonVal.arr bs), ("asks", JsonVal.arr asksRaw)] =
        .ok now := rfl
    have hbl : jLookup [("bids", JsonVal.arr bs), ("asks", JsonVal.arr asksRaw)] "bids" =
        some (.arr bs) := rfl
    have hal : jLookup [("bids", JsonVal.arr bs), ("asks", JsonVal.arr asksRaw)] "asks" =
        some (.arr asksRaw) := rfl
    simp only [parseOrderBookBitstamp, hts, hbl, hal, h]
  · intro now bs asksRaw os m hb ha
    have hts : obTimestamp now [("bids", JsonVal.arr bs), ("asks", JsonVal.arr asksRaw)] =
        .ok now := rfl
    have hbl : jLookup [("bids", JsonVal.arr bs), ("asks", JsonVal.arr asksRaw)] "bids" =
        some (.arr bs) := rfl
    have hal : jLookup [("bids", JsonVal.arr bs), ("asks", JsonVal.arr asksRaw)] "asks" =
        some (.arr asksRaw) := rfl
    simp only [parseOrderBookBitstamp, hts, hbl, hal, hb, ha]
  · intro p a rest m h
    simp only [parseSideGo, h]
  · intro p q a rest m hp ha
    simp only [parseSideGo, hp, ha]

/-- C4 witness: the bids-side wrapping conjunct of the amended claim
applied at the concrete failing side `[["x","1"]]`. -/
theorem c4_witness :
    parseOrderBookBitstamp 7 [("bids", .arr [.arr [.str "x", .str "1"]]), ("asks", .arr [])] =
      .err "bids parsing error: strconv.ParseFloat: parsing \"x\": invalid syntax" :=
  c4_amended.1 7 [.arr [.str "x", .str "1"]] []
    "strconv.ParseFloat: parsing \"x\": invalid syntax" rfl

/-- C5 counterexample: a present timestamp that is a string but not a
base-10 integer string fails with the underlying `strconv.ParseInt`
error, not with "invalid timestamp". -/
theorem c5_counterexample :
    parseOrderBookBitstamp 0
        [("timestamp", .str "abc"), ("bids", .arr []), ("asks", .arr [])] =
      .err "strconv.ParseInt: parsing \"abc\": invalid syntax"
    ∧ "strconv.ParseInt: parsing \"abc\": invalid syntax" ≠ "invalid timestamp" := by
  exact ⟨rfl, by decide⟩

/-- Whenever `parseOrderBookBitstamp` returns a book, its time is
`time.Unix` of the value the timestamp section produced. -/
theorem parseOrderBookBitstamp_ok_time (now : Int) (obj : List (String × JsonVal))
    (ob : OrderBook) (hok : parseOrderBookBitstamp now obj = .ok ob) :
    ∃ t, obTimestamp now obj = .ok t ∧ ob.time = .unix t := by
  unfold parseOrderBookBitstamp at hok
  rcases hts : obTimestamp now obj with m | t
  · simp only [hts] at hok
    cases hok
  · simp only [hts] at hok
    refine ⟨t, rfl, ?_⟩
    rcases hb : jLookup obj "bids" with _ | (_ | b | q | s | bs | fs)
    all_goals simp only [hb] at hok
    all_goals try (cases hok)
    rcases ha : jLookup obj "asks" with _ | (_ | b2 | q2 | s2 | asRaw | fs2)
    all_goals simp only [ha] at hok
    all_goals try (cases hok)
    rcases hpb : parseSideGo bs with pb | m | m
    all_goals simp only [hpb] at hok
    all_goals try (cases hok)
    rcases hpa : parseSideGo asRaw with pa | m | m
    all_goals simp only [hpa] at hok
    all_goals cases hok
    rfl

/-- C5 amended: the timestamp field is optional — when absent the
decoded time is the decode-time clock value `now`; when present as the
string "1700000000" the decoded time is exactly unix 1700000000; when
present but not a string at all the decode fails with "invalid
timestamp"; when present as a string that fails base-10 integer parsing
the decode fails with the underlying `strconv.ParseInt` error instead. -/
theorem c5_timestamp_amended :
    (∀ (now : Int) (obj : List (String × JsonVal)) (ob : OrderBook),
      jLookup obj "timestamp" = none →
      parseOrderBookBitstamp now obj = .ok ob → ob.time = .unix now)
    ∧ (∀ (now : Int) (obj : List (String × JsonVal)) (ob : OrderBook),
      jLookup obj "timestamp" = some (.str "1700000000") →
      parseOrderBookBitstamp now obj = .ok ob → ob.time = .unix 1700000000)
    ∧ (∀ (now : Int) (obj : List (String × JsonVal)) (v : JsonVal),
      jLookup obj "timestamp" = some v → (∀ s, v ≠ .str s) →
      parseOrderBookBitstamp now obj = .err "invalid timestamp")
    ∧ (∀ (now : Int) (obj : List (String × JsonVal)) (s m : String),
      jLookup obj "timestamp" = some (.str s) → goParseInt10 s = .error m →
      parseOrderBookBitstamp now obj = .err m) := by
  refine ⟨?_, ?_, ?_, ?_⟩
  · intro now obj ob h hok
    obtain ⟨t, hts, htime⟩ := parseOrderBookBitstamp_ok_time now obj ob hok
    have : obTimestamp now obj = .ok now := by simp [obTimestamp, h]
    rw [this] at hts
    cases hts
    exact htime
  · intro now obj ob h hok
    obtain ⟨t, hts, htime⟩ := parseOrderBookBitstamp_ok_time now obj ob hok
    have hint : goParseInt10 "1700000000" = .ok 1700000000 := by decide
    have : obTimestamp now obj = .ok 1700000000 := by simp [obTimestamp, h, hint]
    rw [this] at hts
    cases hts
    exact htime
  · intro now obj v h hne
    have hts : obTimestamp now obj = .error "invalid timestamp" := by
      cases v with
      | str s => exact absurd rfl (hne s)
      | null => simp [obTimestamp, h]
      | bool b => simp [obTimestamp, h]
      | num q => simp [obTimestamp, h]
      | arr l => simp [obTimestamp, h]
      | obj l => simp [obTimestamp, h]
    simp only [parseOrderBookBitstamp, hts]
  · intro now obj s m h hint
    have hts : obTimestamp now obj = .error m := by simp [obTimestamp, h, hint]
    simp only [parseOrderBookBitstamp, hts]

/-- C5 witness: the absent-timestamp and exact-timestamp conjuncts of
the amended claim, at concrete objects. -/
theorem c5_witness :
    ({ time := .unix 42, asks := [], bids := [] } : OrderBook).time = .unix 42
    ∧ ({ time := .unix 1700000000, asks := [], bids := [] } : OrderBook).time =
        .unix 1700000000 :=
  ⟨c5_timestamp_amended.1 42 [("bids", .arr []), ("asks", .arr [])]
      { time := .unix 42, asks := [], bids := [] } rfl rfl,
   c5_timestamp_amended.2.1 0
      [("timestamp", .str "1700000000"), ("bids", .arr []), ("asks", .arr [])]
      { time := .unix 1700000000, asks := [], bids := [] } rfl (by decide)⟩

/-- C10 counterexample: on an object with no "bids" field the `part_000`
variant does not return an error at all — `errors.Wrap(err, ...)` wraps
the in-scope `err`, which is nil there, and `Wrap` of nil is nil — so the
function returns a nil book together with a nil error. -/
theorem c10_counterexample :
    parseOrderBookPart0 0 [("asks", JsonVal.arr [])] = .nilNil
    ∧ parseOrderBookPart0 0 [("asks", JsonVal.arr [])] ≠
        .err "bids interface convert error" := by
  exact ⟨rfl, by decide⟩

/-- C10 amended: `parseOrderBook` is not total over well-formed JSON
objects — on a missing (or non-array) "bids" field the `bitstamp.go`
variant panics on the unchecked type assertion, while the `part_000`
variant returns a nil book together with a nil error (because
`errors.Wrap` of the nil in-scope `err` is nil), silently reporting
success; and a bids/asks element that is not an array, or an empty-array
element, or a 1-element array whose entry parses, or an element with a
non-string entry, causes a runtime panic in both variants (which share
the `parse` closure) rather than a returned error. -/
theorem c10_amended :
    (∀ (now : Int) (obj : List (String × JsonVal)) (t : Int),
      obTimestamp now obj = .ok t → jLookup obj "bids" = none →
      parseOrderBookBitstamp now obj = .panic "interface conversion: not an array")
    ∧ (∀ (now : Int) (obj : List (String × JsonVal)) (t : Int),
      obTimestamp now obj = .ok t → jLookup obj "bids" = none →
      parseOrderBookPart0 now obj = .nilNil)
    ∧ (∀ (s : String) (rest : List JsonVal),
      parseSideGo (.str s :: rest) = .panic "interface conversion: not an array")
    ∧ (∀ rest : List JsonVal,
      parseSideGo (.arr [] :: rest) = .panic "runtime error: index out of range")
    ∧ (∀ (p : String) (q : ℚ) (rest : List JsonVal),
      goParseFloat p = .ok q →
      parseSideGo (.arr [.str p] :: rest) = .panic "runtime error: index out of range")
    ∧ (∀ (q : ℚ) (a : JsonVal) (rest : List JsonVal),
      parseSideGo (.arr [.num q, a] :: rest) = .panic "interface conversion: not a string")
    ∧ (∀ (now : Int) (obj : List (String × JsonVal)) (t : Int) (bs asRaw : List JsonVal)
        (m : String),
      obTimestamp now obj = .ok t → jLookup obj "bids" = some (.arr bs) →
      jLookup obj "asks" = some (.arr asRaw) → parseSideGo bs = .panic m →
      parseOrderBookBitstamp now obj = .panic m
      ∧ parseOrderBookPart0 now obj = .panic m) := by
  refine ⟨?_, ?_, ?_, ?_, ?_, ?_, ?_⟩
  · intro now obj t hts hb
    simp only [parseOrderBookBitstamp, hts, hb]
  · intro now obj t hts hb
    simp only [parseOrderBookPart0, hts, hb, errorsWrap, Option.map_none']
  · intro s rest
    simp only [parseSideGo]
  · intro rest
    simp only [parseSideGo]
  · intro p q rest h
    simp only [parseSideGo, h]
  · intro q a rest
    simp only [parseSideGo]
  · intro now obj t bs asRaw m hts hb ha hpb
    refine ⟨?_, ?_⟩
    · simp only [parseOrderBookBitstamp, hts, hb, ha, hpb]
    · simp only [parseOrderBookPart0, hts, hb, ha, hpb]

/-- C10 witness: the nil-nil conjunct of the amended claim at a concrete
object carrying a parseable timestamp and no "bids" field. -/
theorem c10_witness :
    parseOrderBookPart0 0 [("timestamp", .str "5"), ("asks", .arr [])] = .nilNil :=
  c10_amended.2.1 0 [("timestamp", .str "5"), ("asks", .arr [])] 5 (by decide) rfl

/-- C3 counterexample: a trade element with a missing mandatory field
(here "price") does not abort the batch with a returned error — the
unchecked `.(string)` assertion panics instead, so no partial output is
returned either. -/
theorem c3_counterexample :
    formatTrades
        [.obj [("amount", .str "1"), ("date", .str "1600000000"), ("tid", .str "55")]] =
      .panic "interface conversion: not a string" := rfl

/-- C3 amended: the first element whose price, amount or date field
holds a string that fails numeric parsing aborts the batch decode with
an error, and the returned slice keeps the full input length — the
trades decoded before the failing element followed by zero-value trades
from the failing element onward; an element with a missing or
wrong-typed mandatory field (including tid) instead causes a runtime
panic, returning nothing. -/
theorem c3_amended :
    (∀ (good : List JsonVal) (ts : List Trade) (bad : JsonVal) (rest : List JsonVal)
        (m : String),
      decodeTrades good = some ts → decodeTradeStep bad = .err m →
      formatTrades (good ++ bad :: rest) =
        .errRet (ts ++ List.replicate (rest.length + 1) zeroTrade) m)
    ∧ (∀ (good : List JsonVal) (ts : List Trade) (bad : JsonVal) (rest : List JsonVal)
        (m : String),
      decodeTrades good = some ts → decodeTradeStep bad = .panic m →
      formatTrades (good ++ bad :: rest) = .panic m) := by
  constructor
  · intro good
    induction good with
    | nil =>
      intro ts bad rest m hgood hbad
      cases hgood
      simp only [List.nil_append, formatTrades, hbad]
    | cons v good ih =>
      intro ts bad rest m hgood hbad
      rcases hv : decodeTradeStep v with t | m2 | m2
      all_goals simp only [decodeTrades, hv] at hgood
      · obtain ⟨ts1, hts1, rfl⟩ := Option.map_eq_some'.mp hgood
        simp only [List.cons_append, formatTrades, hv, List.append_eq,
          ih ts1 bad rest m hts1 hbad, List.cons_append]
      · cases hgood
      · cases hgood
  · intro good
    induction good with
    | nil =>
      intro ts bad rest m hgood hbad
      cases hgood
      simp only [List.nil_append, formatTrades, hbad]
    | cons v good ih =>
      intro ts bad rest m hgood hbad
      rcases hv : decodeTradeStep v with t | m2 | m2
      all_goals simp only [decodeTrades, hv] at hgood
      · obtain ⟨ts1, hts1, rfl⟩ := Option.map_eq_some'.mp hgood
        simp only [List.cons_append, formatTrades, hv, List.append_eq,
          ih ts1 bad rest m hts1 hbad]
      · cases hgood
      · cases hgood

theorem goParseInt10_1600000000 : goParseInt10 "1600000000" = .ok 1600000000 := by decide

/-- Concrete decodable trade object used by the C3 witness. -/
def exGoodTrade : JsonVal :=
  .obj [("price", .str "10"), ("amount", .str "1"), ("date", .str "1600000000"),
        ("tid", .str "55")]

/-- The trade value `exGoodTrade` decodes to. -/
def exGoodTradeVal : Trade :=
  { time := .unix 1600000000, id := "55", price := 10, amount := 1 }

/-- Concrete trade object whose price string fails to parse, used by the
C3 witness. -/
def exBadTrade : JsonVal :=
  .obj [("price", .str "x"), ("amount", .str "1"), ("date", .str "1600000000"),
        ("tid", .str "56")]

theorem decodeTradeStep_exGoodTrade : decodeTradeStep exGoodTrade = .ok exGoodTradeVal := by
  have h1 : jLookup [("price", JsonVal.str "10"), ("amount", .str "1"),
      ("date", .str "1600000000"), ("tid", .str "55")] "price" = some (.str "10") := rfl
  have h2 : jLookup [("price", JsonVal.str "10"), ("amount", .str "1"),
      ("date", .str "1600000000"), ("tid", .str "55")] "amount" = some (.str "1") := rfl
  have h3 : jLookup [("price", JsonVal.str "10"), ("amount", .str "1"),
      ("date", .str "1600000000"), ("tid", .str "55")] "date" =
      some (.str "1600000000") := rfl
  have h4 : jLookup [("price", JsonVal.str "10"), ("amount", .str "1"),
      ("date", .str "1600000000"), ("tid", .str "55")] "tid" = some (.str "55") := rfl
  simp only [exGoodTrade, decodeTradeStep, h1, h2, h3, h4, goParseFloat_10,
    goParseFloat_1, goParseInt10_1600000000, exGoodTradeVal]

/-- C3 witness: the error-return conjunct of the amended claim at a
concrete batch — one decodable trade, then a trade whose price string
fails to parse, then one further element — yielding the decoded prefix
padded with zero-value trades alongside the error. -/
theorem c3_witness :
    formatTrades [exGoodTrade, exBadTrade, .null] =
      .errRet [exGoodTradeVal, zeroTrade, zeroTrade]
        "strconv.ParseFloat: parsing \"x\": invalid syntax" := by
  have h := c3_amended.1 [exGoodTrade] [exGoodTradeVal] exBadTrade [.null]
    "strconv.ParseFloat: parsing \"x\": invalid syntax"
    (by simp only [decodeTrades, decodeTradeStep_exGoodTrade, Option.map_some'])
    rfl
  simpa only [List.cons_append, List.nil_append, List.replicate] using h

/-- C2 (code bug): in the Delivering select of `part_000`'s
`SubscribeOrderBook`, the `case <-stopChan:` arm has an empty body, so an
external stop signal is consumed and the loop keeps looping — it never
unsubscribes, closes or returns — while an error from `Errors` does
unsubscribe, close the client and return; the function's own doc comment
("To stop processing, sent to, or close stopChan") says the stop signal
stops processing. -/
theorem c2_stop_signal_ignored :
    ∀ now : Int,
      deliveringStep now .stopSignal = .looping none
      ∧ deliveringStep now .errQueueEvt = .returned true true none :=
  fun _ => ⟨rfl, rfl⟩

/-- C9: a decode failure (error return) on an inbound streamed
order-book event is non-fatal — the event is dropped and the Delivering
loop continues — while the identical decode routine reached through
`GetOrderBook` returns the same error to the caller. -/
theorem c9_stream_decode_error_dropped_rest_fatal :
    ∀ (now : Int) (ch : String) (doc : JsonVal) (m : String),
      parseOrderBookPart0Doc now doc = .err m →
      deliveringStep now (.streamEvt { event := "data", channel := ch, data := doc }) =
        .looping none
      ∧ getOrderBookDecode now doc = .err m := by
  intro now ch doc m h
  refine ⟨?_, h⟩
  simp [deliveringStep, h]

/-- Concrete order-book document whose bids contain an unparseable price
string, used by the C9 witness. -/
def exBadBookDoc : JsonVal :=
  .obj [("bids", .arr [.arr [.str "x", .str "1"]]), ("asks", .arr [])]

/-- C9 witness: a streamed payload whose bids contain an unparseable
price string is dropped by the Delivering loop, while `GetOrderBook` on
the same payload returns the wrapped decode error. -/
theorem c9_witness :
    deliveringStep 0
        (.streamEvt { event := "data", channel := "order_book_btcusd", data := exBadBookDoc }) =
      .looping none
    ∧ getOrderBookDecode 0 exBadBookDoc =
      .err "bids parsing error: strconv.ParseFloat: parsing \"x\": invalid syntax" :=
  c9_stream_decode_error_dropped_rest_fatal 0 "order_book_btcusd" exBadBookDoc
    "bids parsing error: strconv.ParseFloat: parsing \"x\": invalid syntax" rfl

/-- C6: pushing a read or decode failure to the `Errors` queue never
blocks the read loop — the step never reaches the blocked outcome — and
when the single-slot queue already holds an undelivered error the new
error is discarded (the state, including the slot, is unchanged) and the
loop proceeds: a decode failure continues immediately, a read failure
continues after the retry sleep unless the retryability classification
terminates the loop. -/
theorem c6_error_push_never_blocks :
    (∀ (s : WsState) (inp : ReadInput), readLoopStep s inp ≠ .blocked)
    ∧ (∀ (s : WsState) (e0 e : ReadError),
      s.doneFlag = false → s.errSlot = some e0 →
      readLoopStep s (.decodeFail e) = .continued s none 0
      ∧ readLoopStep s (.readFail e) =
          (if e.temporaryCap = some false
           then .exited { s with connOpen := false }
           else .continued s none 100)) := by
  constructor
  · intro s inp
    simp only [readLoopStep]
    split
    · intro h
      cases h
    · match inp with
      | .readFail e =>
        by_cases ht : e.temporaryCap = some false
        · simp only [ht, if_pos]
          intro h
          cases h
        · simp only [ht, if_neg, if_false]
          intro h
          cases h
      | .decodeFail e =>
        intro h
        cases h
      | .event ev =>
        intro h
        cases h
  · intro s e0 e hd hslot
    obtain ⟨d, slot, c⟩ := s
    cases hd
    cases hslot
    constructor
    · rfl
    · by_cases ht : e.temporaryCap = some false
      · simp only [readLoopStep, tryPushErr, ht, if_pos, Bool.false_eq_true, if_false]
      · simp only [readLoopStep, tryPushErr, ht, if_neg, Bool.false_eq_true, if_false]

/-- Concrete old error occupying the single-slot queue in the C6
witness. -/
def exOldErr : ReadError :=
  { msg := "old", temporaryCap := none }

/-- Concrete new error dropped by the full queue in the C6 witness. -/
def exNewErr : ReadError :=
  { msg := "new", temporaryCap := none }

/-- Concrete full-slot state used by the C6 witness. -/
def exFullState : WsState :=
  { doneFlag := false, errSlot := some exOldErr, connOpen := true }

/-- C6 witness: the full-slot conjunct applied at a concrete state whose
`Errors` slot is occupied: a decode failure leaves the slot holding the
old error and the loop continues. -/
theorem c6_witness :
    readLoopStep exFullState (.decodeFail exNewErr) = .continued exFullState none 0 :=
  (c6_error_push_never_blocks.2 exFullState exOldErr exNewErr rfl rfl).1

/-- C7: a read failure is classified via the `errTemporary` capability —
the loop terminates exactly when the error implements the capability and
answers not-temporary; any other read failure makes the loop sleep the
fixed 100 ms interval and continue; and the retry has no cap: any number
of consecutive retryable read failures leaves the loop alive. -/
theorem c7_read_failure_classification :
    (∀ (s : WsState) (e : ReadError), s.doneFlag = false →
      ((∃ s1, readLoopStep s (.readFail e) = .exited s1) ↔ e.temporaryCap = some false))
    ∧ (∀ (s : WsState) (e : ReadError), s.doneFlag = false → e.temporaryCap ≠ some false →
      readLoopStep s (.readFail e) =
        .continued { s with errSlot := tryPushErr s.errSlot e } none 100)
    ∧ (∀ (n : Nat) (s : WsState) (e : ReadError),
      s.doneFlag = false → e.temporaryCap ≠ some false →
      ∃ s1, runReads s (List.replicate n (.readFail e)) = .alive s1
        ∧ s1.doneFlag = false) := by
  have hcont : ∀ (s : WsState) (e : ReadError), s.doneFlag = false →
      e.temporaryCap ≠ some false →
      readLoopStep s (.readFail e) =
        .continued { s with errSlot := tryPushErr s.errSlot e } none 100 := by
    intro s e hd ht
    simp only [readLoopStep, hd, Bool.false_eq_true, if_false, ht]
  refine ⟨?_, hcont, ?_⟩
  · intro s e hd
    constructor
    · intro ⟨s1, h1⟩
      by_cases ht : e.temporaryCap = some false
      · exact ht
      · rw [hcont s e hd ht] at h1
        cases h1
    · intro ht
      refine ⟨{ s with errSlot := tryPushErr s.errSlot e, connOpen := false }, ?_⟩
      simp only [readLoopStep, hd, Bool.false_eq_true, if_false, ht, if_pos]
  · intro n
    induction n with
    | zero =>
      intro s e hd ht
      exact ⟨s, rfl, hd⟩
    | succ n ih =>
      intro s e hd ht
      have hstep := hcont s e hd ht
      have hd1 : ({ s with errSlot := tryPushErr s.errSlot e } : WsState).doneFlag = false := hd
      obtain ⟨s1, hrun, hdone⟩ := ih { s with errSlot := tryPushErr s.errSlot e } e hd1 ht
      refine ⟨s1, ?_, hdone⟩
      simp only [List.replicate, runReads, hstep, hrun]

/-- C7 witness: the no-retry-cap conjunct applied to three consecutive
retryable failures from a fresh state: the loop is still alive. -/
theorem c7_witness :
    ∃ s1, runReads { doneFlag := false, errSlot := none, connOpen := true }
        (List.replicate 3 (.readFail { msg := "tmp", temporaryCap := some true })) =
      .alive s1 ∧ s1.doneFlag = false :=
  c7_read_failure_classification.2.2 3
    { doneFlag := false, errSlot := none, connOpen := true }
    { msg := "tmp", temporaryCap := some true } rfl (by decide)

/-- C8: `Close` is idempotent and never blocks — it only sets the
single-slot shutdown flag (never touching the connection), repeated
calls send the shutdown signal exactly once — and the connection is
released only by the read loop, when it observes the flag or when a
non-retryable read failure terminates it. -/
theorem c8_close_idempotent_signal_once :
    (∀ s : WsState, (closeStep s).1.connOpen = s.connOpen
      ∧ (closeStep s).1.doneFlag = true)
    ∧ (∀ (n : Nat) (s : WsState), 1 ≤ n → s.doneFlag = false →
      (iterCloseCount n s).2 = 1)
    ∧ (∀ (s : WsState) (inp : ReadInput), s.doneFlag = true →
      readLoopStep s inp = .exited { s with doneFlag := false, connOpen := false })
    ∧ (∀ (s : WsState) (e : ReadError), s.doneFlag = false → e.temporaryCap = some false →
      readLoopStep s (.readFail e) =
        .exited { s with errSlot := tryPushErr s.errSlot e, connOpen := false }) := by
  have hdone : ∀ (n : Nat) (s : WsState), s.doneFlag = true →
      (iterCloseCount n s).2 = 0 := by
    intro n
    induction n with
    | zero => intro s _; rfl
    | succ n ih =>
      intro s hd
      simp only [iterCloseCount, closeStep, hd, if_pos, Bool.false_eq_true, if_false,
        ih s hd]
  refine ⟨?_, ?_, ?_, ?_⟩
  · intro s
    by_cases hd : s.doneFlag <;> simp [closeStep, hd]
  · intro n s hn hd
    obtain ⟨m, rfl⟩ := Nat.exists_eq_add_of_le hn
    have h1 : closeStep s = ({ s with doneFlag := true }, true) := by
      simp only [closeStep, hd, Bool.false_eq_true, if_false]
    simp only [Nat.add_comm, iterCloseCount, h1,
      hdone m { s with doneFlag := true } rfl, if_pos]
  · intro s inp hd
    simp only [readLoopStep, hd, if_pos]
  · intro s e hd ht
    simp only [readLoopStep, hd, Bool.false_eq_true, if_false, ht, if_pos]

/-- C8 witness: three consecutive `Close` calls from a fresh state send
the shutdown signal exactly once. -/
theorem c8_witness :
    (iterCloseCount 3 { doneFlag := false, errSlot := none, connOpen := true }).2 = 1 :=
  c8_close_idempotent_signal_once.2.1 3
    { doneFlag := false, errSlot := none, connOpen := true } (by decide) rfl

end Bitstamp
